import Mathlib

/-!
# Verification of the optimize-controller trial lifecycle and API client

Shallow embedding of the `vangarp/optimize-controller` repository:

* `redskyapi` — the HTTP client (`NewClient`, `httpClient.URL`, `httpClient.Do`)
  from the `redskyapi` package.
* `redsky` — the trial data model from `pkg/apis/redsky/v1alpha1/trial_types.go`
  and the experiment metric types, together with the trial lifecycle behaviour
  modelled from the specification (the controller sources are not part of the
  repository snapshot, only the type declarations are).
* `api` — a heap-indexed model of the generated deep-copy functions from
  `api/v1alpha1/zz_generated.deepcopy.go`.

Go `error` values are modelled as `Option GoError` (`none` = nil error);
Go slices are modelled as `List` values, and — where aliasing matters —
as an optional pair of a backing-array address and the element list.
-/

/-- A Go `error` value (non-nil); the nil error is `Option.none` at use sites. -/
structure GoError where
  msg : String
deriving DecidableEq, Repr

namespace redskyapi

/-- A parsed `*url.URL`; only its identity matters for the client claims. -/
structure URL where
  raw : String
deriving DecidableEq, Repr

/--
The client configuration.  In Go, `Config` offers
`Authorize(ctx, transport) (http.RoundTripper, error)` and
`ExperimentsURL(ep string) (*url.URL, error)`; both Go results carry a value
and an error, modelled as a pair of options.
-/
structure Config where
  authorizeErr : Option GoError
  experimentsURL : String → Option URL × Option GoError

/-- The `httpClient` struct: it retains its configuration. -/
structure httpClient where
  config : Config

/--
`NewClient` (src/unnamed/part_000, lines 35-54): configures the OAuth2
transport via `cfg.Authorize` and then checks `cfg.ExperimentsURL("")` so
that the error from `ExperimentsURL` can be ignored later; any error aborts
construction.  Only the empty endpoint is pre-validated.
-/
def NewClient (cfg : Config) : Except GoError httpClient :=
  match cfg.authorizeErr with
  | some e => .error e
  | none =>
    match (cfg.experimentsURL "").2 with
    | some e => .error e
    | none => .ok { config := cfg }

/--
`httpClient.URL` (src/unnamed/part_000, lines 61-64):
`u, _ := c.config.ExperimentsURL(ep); return u` — the error is discarded
and the (possibly nil) URL is returned as is.
-/
def httpClient.URL (c : httpClient) (ep : String) : Option URL :=
  (c.config.experimentsURL ep).1

/--
A Go `context.Context` once it may have been cancelled.  The Go contract is
that after `Done()` is closed, `Err()` returns a non-nil error, so a
cancelled context carries the `GoError` that `Err()` reports.
-/
structure Ctx where
  canceled : Bool
  ctxErr : GoError
deriving DecidableEq, Repr

/-- `ctx.Err()`: non-nil exactly when the context has been cancelled. -/
def Ctx.Err (c : Ctx) : Option GoError :=
  if c.canceled then some c.ctxErr else none

/--
The observable behaviour of an `*http.Response` inside `Do`:
what `ioutil.ReadAll(resp.Body)` returns (bytes read and its error), and
what `resp.Body.Close()` returns when called from the cancellation branch.
-/
structure Response where
  readBytes : List Nat
  readErr : Option GoError
  closeErr : Option GoError
deriving DecidableEq, Repr

/-- The outcome of a call to `Do`: either a Go runtime panic, or a normal
return of `(*http.Response, []byte, error)`. -/
inductive DoOutcome where
  | panic (msg : String)
  | ret (resp : Option Response) (body : Option (List Nat)) (err : Option GoError)
deriving DecidableEq, Repr

/--
`httpClient.Do` (src/unnamed/part_000, lines 66-94).

Inputs beyond the code's own: `ctx` is `none` for a nil `context.Context`
interface; `rt` is the result of the single `c.client.Do(req)` round trip;
`ctxDoneFirst` records which `select` case fires when both could (the
`ctx.Done()` case is only ready when the context has been cancelled, which
the definition checks).

The Go control flow embedded here:
* a round-trip error returns `nil, nil, err` immediately;
* otherwise a goroutine runs `body, err = ioutil.ReadAll(resp.Body)` and the
  `select` evaluates `ctx.Done()` — a method call on a nil interface, hence a
  runtime panic when `ctx` is nil;
* in the `ctx.Done()` branch the code waits for the read to finish, then sets
  `err = resp.Body.Close()` and, if that is nil, `err = ctx.Err()`;
* in the `done` branch it returns the read result unchanged.
-/
def httpClient.Do (ctx : Option Ctx) (rt : Except GoError Response)
    (ctxDoneFirst : Bool) : DoOutcome :=
  match rt with
  | .error e => .ret none none (some e)
  | .ok resp =>
    match ctx with
    | none => .panic "runtime error: invalid memory address or nil pointer dereference"
    | some c =>
      if ctxDoneFirst && c.canceled then
        let err := match resp.closeErr with
          | some ce => some ce
          | none => c.Err
        .ret (some resp) (some resp.readBytes) err
      else
        .ret (some resp) (some resp.readBytes) resp.readErr

end redskyapi

namespace redsky

/-!
## Trial data model — pkg/apis/redsky/v1alpha1/trial_types.go

External Kubernetes types (`corev1.ObjectReference`, `metav1.Time`, …) are
opaque scalars here; only the fields the claims mention are modelled in full.
-/

/-- `corev1.ObjectReference`, collapsed to the identifying fields. -/
structure ObjectReference where
  kind : String
  namespc : String
  name : String
deriving DecidableEq, Repr

/-- `Assignment` (trial_types.go, lines 87-90). -/
structure Assignment where
  name : String
  value : Int
deriving DecidableEq, Repr

/-- `PatchOperation` (trial_types.go, lines 73-83). `Data` is raw bytes. -/
structure PatchOperation where
  targetRef : ObjectReference
  patchType : String
  data : List Nat
  attemptsRemaining : Int
deriving DecidableEq, Repr

/-- `Value` (trial_types.go, lines 94-105): an observed metric value. -/
structure Value where
  name : String
  value : String
  error : String
  attemptsRemaining : Int
deriving DecidableEq, Repr

/-- `SetupTask` (trial_types.go, lines 52-69), with the Helm payload fields
collapsed to the flags the lifecycle claims use. -/
structure SetupTask where
  name : String
  image : String
  skipCreate : Bool
  skipDelete : Bool
deriving DecidableEq, Repr

/-- `TrialConditionType` is a string in Go; the declared constants follow. -/
abbrev TrialConditionType := String

/-- `TrialComplete` (trial_types.go, line 112). -/
def TrialComplete : TrialConditionType := "Complete"

/-- `TrialFailed` (trial_types.go, line 114). -/
def TrialFailed : TrialConditionType := "Failed"

/-- `corev1.ConditionStatus`: one of `"True"`, `"False"`, `"Unknown"`. -/
abbrev ConditionStatus := String

/-- `TrialCondition` (trial_types.go, lines 119-132); the two `metav1.Time`
fields are opaque tick counts. -/
structure TrialCondition where
  condType : TrialConditionType
  status : ConditionStatus
  lastProbeTime : Nat
  lastTransitionTime : Nat
  reason : String
  message : String
deriving DecidableEq, Repr

/-- The mutable trial object as the lifecycle controller sees it: the
claim-relevant `TrialSpec` and `TrialStatus` fields (trial_types.go,
lines 135-177). -/
structure Trial where
  assignments : List Assignment
  patchOperations : List PatchOperation
  values : List Value
  setupTasks : List SetupTask
  conditions : List TrialCondition
deriving DecidableEq, Repr

/-- A trial is terminal when a `Complete` or `Failed` condition has status
`"True"` (spec §4.5: these conditions are terminal). -/
def Trial.isFinished (t : Trial) : Bool :=
  t.conditions.any fun c =>
    (c.condType == TrialComplete || c.condType == TrialFailed) && c.status == "True"

/-!
## Attempt counters — retry policy modelled from the spec

The resolver/collector retry loops are not part of the repository snapshot
(only the `AttemptsRemaining` field declarations are), so the counter
lifecycle is modelled from the spec.
-/

/-- The retry-relevant state of one operation (a `PatchOperation` or a metric
`Value`): its `AttemptsRemaining` counter and whether the operation has
succeeded. -/
structure OpState where
  attemptsRemaining : Int
  succeeded : Bool
deriving DecidableEq, Repr

/--
Modelled from the spec: the attempt-counter transitions of §4.1/§4.4 for a
single operation — "on success the resolver sets `AttemptsRemaining=0`; on
failure it decrements the counter"; no further attempts run once the
operation has succeeded, and no attempt runs on an exhausted counter
("when the counter reaches zero without success, the resolver reports a
fatal error").
-/
inductive AttemptStep : OpState → OpState → Prop
  | succeed (n : Int) (h : 0 < n) :
      AttemptStep ⟨n, false⟩ ⟨0, true⟩
  | fail (n : Int) (h : 0 < n) :
      AttemptStep ⟨n, false⟩ ⟨n - 1, false⟩

/-- Any number of attempt-counter transitions. -/
def AttemptSteps : OpState → OpState → Prop :=
  Relation.ReflTransGen AttemptStep

/-- The retry-relevant view of a whole trial: one `OpState` per
`PatchOperation` and one per metric `Value`. -/
structure TrialRetryState where
  patchOps : List OpState
  valueOps : List OpState
deriving DecidableEq, Repr

/--
Modelled from the spec: over a trial's lifetime the controller runs attempt
loops for the individual operations; each transition performs one attempt of
exactly one patch operation or one metric value, leaving every other
operation untouched (§5: each trial's counters are exclusively owned by its
controller, phases are sequential).
-/
inductive TrialRetryStep : TrialRetryState → TrialRetryState → Prop
  | patch (s : TrialRetryState) (i : Nat) (a b : OpState)
      (hget : s.patchOps.get? i = some a) (hstep : AttemptStep a b) :
      TrialRetryStep s ⟨s.patchOps.set i b, s.valueOps⟩
  | value (s : TrialRetryState) (i : Nat) (a b : OpState)
      (hget : s.valueOps.get? i = some a) (hstep : AttemptStep a b) :
      TrialRetryStep s ⟨s.patchOps, s.valueOps.set i b⟩

/-- Any number of per-operation attempt transitions of a trial. -/
def TrialRetrySteps : TrialRetryState → TrialRetryState → Prop :=
  Relation.ReflTransGen TrialRetryStep

/-!
## Metrics — src/unnamed/part_001 (experiment types)
-/

/-- `MetricType` (part_001, line 20) is a string in Go; the declared
constants follow. -/
abbrev MetricType := String

/-- `MetricLocal` (part_001, line 25). -/
def MetricLocal : MetricType := "local"

/-- `MetricPrometheus` (part_001, line 27). -/
def MetricPrometheus : MetricType := "prometheus"

/-- `MetricJSONPath` (part_001, line 29). -/
def MetricJSONPath : MetricType := "jsonpath"

/-- `Metric` (part_001, lines 34-53); the service selector is collapsed to
the matching outcome recorded in `CollectEnv`. -/
structure Metric where
  name : String
  minimize : Bool
  type : MetricType
  query : String
  port : Nat
  path : String
deriving DecidableEq, Repr

/-- The result a Prometheus endpoint returns for a query: a scalar, or a
vector of data points (each rendered as its string form). -/
inductive PromResult where
  | scalar (v : String)
  | vector (points : List String)
deriving DecidableEq, Repr

/-- Collector errors, split by the spec's error taxonomy (§7): transient
failures are retryable, data-shape errors are not. -/
inductive CollectError where
  | retryable (msg : String)
  | nonRetryable (msg : String)
deriving DecidableEq, Repr

/-- The external world a metric collection pass observes: the endpoint the
metric's selector matched, what that endpoint answers, and the Go template
evaluator used for local metrics. -/
structure CollectEnv where
  endpoint : String
  promResult : PromResult
  jsonResult : String
  localEval : String → Trial → String

/--
Modelled from the spec: the metric collector's per-metric evaluation
(§4.4).  The collector sources are not part of the repository snapshot,
only the `MetricType` constants are.  Returns the observed value together
with the list of network endpoints consulted:

* `local` evaluates the query template against the trial itself, consulting
  no external service;
* `prometheus` issues the query to the matched endpoint and requires the
  result to reduce to a single scalar — a multi-value result is a
  non-retryable error;
* `jsonpath` fetches a JSON document from the matched endpoint and extracts
  the queried value;
* any other type string is rejected as non-retryable.
-/
def captureMetric (m : Metric) (t : Trial) (env : CollectEnv) :
    Except CollectError (String × List String) :=
  if m.type = MetricLocal then
    .ok (env.localEval m.query t, [])
  else if m.type = MetricPrometheus then
    match env.promResult with
    | .scalar v => .ok (v, [env.endpoint])
    | .vector [p] => .ok (p, [env.endpoint])
    | .vector _ => .error (.nonRetryable "expected scalar query result")
  else if m.type = MetricJSONPath then
    .ok (env.jsonResult, [env.endpoint])
  else
    .error (.nonRetryable "unsupported metric type")

/-- Replace the element at index `i` when it exists (Go `s[i] = f(s[i])`). -/
def modifyAt (l : List α) (i : Nat) (f : α → α) : List α :=
  match l.get? i with
  | none => l
  | some a => l.set i (f a)

/-- Append a condition recording a failed trial (spec §7: every fatal path
appends a `Conditions` entry with reason and message). -/
def Trial.markFailed (t : Trial) (now : Nat) (reason msg : String) : Trial :=
  { t with conditions :=
      t.conditions ++ [⟨TrialFailed, "True", now, now, reason, msg⟩] }

/--
Modelled from the spec: recording one metric's collection outcome on the
trial (§4.4) — on success set `Value{Value, Error}` and
`AttemptsRemaining=0`; on transient failure decrement `AttemptsRemaining`;
on a data-shape error immediately exhaust the counter and mark the trial
`Failed`.
-/
def Trial.recordMetric (t : Trial) (i : Nat) (now : Nat)
    (r : Except CollectError (String × List String)) : Trial :=
  match r with
  | .ok (v, _) =>
      { t with values := modifyAt t.values i fun x =>
          { x with value := v, attemptsRemaining := 0 } }
  | .error (.retryable _) =>
      { t with values := modifyAt t.values i fun x =>
          { x with attemptsRemaining := x.attemptsRemaining - 1 } }
  | .error (.nonRetryable msg) =>
      ({ t with values := modifyAt t.values i fun x =>
          { x with attemptsRemaining := 0 } }).markFailed now "MetricFailed" msg

/--
Modelled from the spec: one collection pass for metric `i` — evaluate the
metric against the environment and record the outcome on the trial.
-/
def Trial.collectMetric (t : Trial) (i : Nat) (m : Metric) (env : CollectEnv)
    (now : Nat) : Trial :=
  t.recordMetric i now (captureMetric m t env)

/-!
## Trial lifecycle controller — modelled from the spec (§4.5)
-/

/-- The observable events the lifecycle controller reacts to once a trial
exists: patch attempts, metric attempts, setup progress, and terminal or
informational condition updates. -/
inductive LifecycleEvent where
  | patchApplied (i : Nat)
  | patchFailed (i : Nat)
  | metricCollect (i : Nat) (m : Metric) (env : CollectEnv) (now : Nat)
  | setupTaskAdd (s : SetupTask)
  | complete (now : Nat)
  | failed (now : Nat) (reason msg : String)
  | setupDeleteWarning (now : Nat) (msg : String)

/--
Modelled from the spec: the lifecycle controller's reaction to one event
(§4.5).  While the trial is live the controller mutates the trial's
operations and counters; once a `Complete=True` or `Failed=True` condition
exists the trial is terminal — every mutation is suppressed except
informational appends to `Conditions` (e.g. late setup-delete warnings,
recorded with status `"False"` so they do not create a new terminal state).
-/
def controllerStep (t : Trial) (e : LifecycleEvent) : Trial :=
  if t.isFinished then
    match e with
    | .setupDeleteWarning now msg =>
        { t with conditions :=
            t.conditions ++ [⟨TrialFailed, "False", now, now, "SetupDeleteFailed", msg⟩] }
    | _ => t
  else
    match e with
    | .patchApplied i =>
        { t with patchOperations := modifyAt t.patchOperations i fun p =>
            { p with attemptsRemaining := 0 } }
    | .patchFailed i =>
        { t with patchOperations := modifyAt t.patchOperations i fun p =>
            { p with attemptsRemaining := p.attemptsRemaining - 1 } }
    | .metricCollect i m env now => t.collectMetric i m env now
    | .setupTaskAdd s => { t with setupTasks := t.setupTasks ++ [s] }
    | .complete now =>
        { t with conditions :=
            t.conditions ++ [⟨TrialComplete, "True", now, now, "TrialComplete", ""⟩] }
    | .failed now reason msg => t.markFailed now reason msg
    | .setupDeleteWarning now msg =>
        { t with conditions :=
            t.conditions ++ [⟨TrialFailed, "False", now, now, "SetupDeleteFailed", msg⟩] }

end redsky

namespace api

/-!
## Generated deep copy — api/v1alpha1/zz_generated.deepcopy.go

The deep-copy claims are about aliasing, so Go slices are modelled with an
explicit backing-array address: two slices share mutable memory exactly when
they carry the same address.  Deep-copy functions thread an allocation
counter `n`; every address allocated by a copy is `≥ n`, so a copy of an
object whose addresses are `< n` shares no address with the original.

This package's `Trial` (the `api/v1alpha1` version) is reconstructed from
the generated deep-copy code itself; fields that the copy treats as plain
value assignments (`TypeMeta`, `TargetRef`, times, strings, numbers) are
opaque scalars, and `TrialSpec`/`SetupTask` fields not named by the claims
(readiness gates/checks, setup volumes, default rules, Helm payloads,
volume mounts) are collapsed.
-/

/-- A Go slice: nil, or a backing-array address together with its elements. -/
inductive Slice (α : Type) where
  | nil
  | mk (addr : Nat) (elems : List α)
deriving DecidableEq, Repr

/-- The elements of a slice, `none` for the nil slice. -/
def Slice.elems? : Slice α → Option (List α)
  | .nil => none
  | .mk _ es => some es

/-- The elements of a slice viewed through `f`, `none` for the nil slice. -/
def Slice.elemsWith (f : α → β) : Slice α → Option (List β)
  | .nil => none
  | .mk _ es => some (es.map f)

/-- The backing-array address of a slice, as a (0- or 1-element) list. -/
def Slice.addrs : Slice α → List Nat
  | .nil => []
  | .mk a _ => [a]

/-- The slice's own address together with the addresses owned by its
elements. -/
def Slice.addrsWith (f : α → List Nat) : Slice α → List Nat
  | .nil => []
  | .mk a es => a :: (es.map f).flatten

/-- `Assignment` (api version): scalar fields only, `*out = *in`. -/
structure Assignment where
  name : String
  value : Int
deriving DecidableEq, Repr

/-- `corev1.ObjectReference`: copied by plain assignment. -/
structure ObjectReference where
  kind : String
  namespc : String
  name : String
deriving DecidableEq, Repr

/-- `PatchOperation` (api version): `Data` is an owned byte slice. -/
structure PatchOperation where
  targetRef : ObjectReference
  patchType : String
  data : Slice Nat
  attemptsRemaining : Int
deriving DecidableEq, Repr

/-- `Value` (api version): scalar fields only — its generated
`DeepCopyInto` is `*out = *in`. -/
structure Value where
  name : String
  value : String
  error : String
  attemptsRemaining : Int
deriving DecidableEq, Repr

/-- `SetupTask` (api version): `Command` and `Args` are owned string
slices; the remaining owned slices are collapsed (see the section note). -/
structure SetupTask where
  name : String
  command : Slice String
  args : Slice String
  skipCreate : Bool
  skipDelete : Bool
deriving DecidableEq, Repr

/-- `TrialCondition` (api version): scalar fields (times as opaque ticks);
its `DeepCopyInto` copies the receiver and the two times by value. -/
structure TrialCondition where
  condType : String
  status : String
  lastProbeTime : Nat
  lastTransitionTime : Nat
  reason : String
  message : String
deriving DecidableEq, Repr

/-- The claim-relevant fields of `TrialSpec` (api version). -/
structure TrialSpec where
  targetNamespace : String
  assignments : Slice Assignment
  patchOperations : Slice PatchOperation
  values : Slice Value
  setupTasks : Slice SetupTask
deriving DecidableEq, Repr

/-- The claim-relevant fields of `TrialStatus` (api version). -/
structure TrialStatus where
  phase : String
  conditions : Slice TrialCondition
deriving DecidableEq, Repr

/-- `Trial` (api version): `TypeMeta`/`ObjectMeta` collapsed to scalars. -/
structure Trial where
  name : String
  spec : TrialSpec
  status : TrialStatus
deriving DecidableEq, Repr

/-- The `make([]T, len(*in)); copy(*out, *in)` pattern: a fresh backing
array holding the same element values; the nil slice is left nil
(the generated code only copies under `if in.X != nil`). -/
def copySlice (s : Slice α) (n : Nat) : Slice α × Nat :=
  match s with
  | .nil => (.nil, n)
  | .mk _ es => (.mk n es, n + 1)

/-- Element-wise copying with an allocating per-element copier, threading
the allocation counter left to right. -/
def copyListWith (f : α → Nat → α × Nat) : List α → Nat → List α × Nat
  | [], n => ([], n)
  | x :: xs, n =>
      ((f x n).1 :: (copyListWith f xs (f x n).2).1,
       (copyListWith f xs (f x n).2).2)

/-- The `make([]T, len(*in)); for i { (*in)[i].DeepCopyInto(&(*out)[i]) }`
pattern: a fresh backing array, each element copied by `f`. -/
def copySliceWith (f : α → Nat → α × Nat) (s : Slice α) (n : Nat) :
    Slice α × Nat :=
  match s with
  | .nil => (.nil, n)
  | .mk _ es =>
      (.mk n (copyListWith f es (n + 1)).1, (copyListWith f es (n + 1)).2)

/-- `PatchOperation.DeepCopyInto` (zz_generated.deepcopy.go, lines 388-396):
copy all fields, `TargetRef` by value, and give `Data` a fresh backing
array with the same bytes. -/
def PatchOperation.deepCopyInto (p : PatchOperation) (n : Nat) :
    PatchOperation × Nat :=
  let r := copySlice p.data n
  ({ p with data := r.1 }, r.2)

/-- `SetupTask.DeepCopyInto` (zz_generated.deepcopy.go, lines 479-512):
copy all fields and give `Command` and `Args` fresh backing arrays. -/
def SetupTask.deepCopyInto (s : SetupTask) (n : Nat) : SetupTask × Nat :=
  let rc := copySlice s.command n
  let ra := copySlice s.args rc.2
  ({ s with command := rc.1, args := ra.1 }, ra.2)

/-- `TrialCondition.DeepCopyInto` (zz_generated.deepcopy.go, lines 591-595):
all fields copied by value (the two times own no memory here). -/
def TrialCondition.deepCopyInto (c : TrialCondition) (n : Nat) :
    TrialCondition × Nat :=
  (c, n)

/-- `TrialSpec.DeepCopyInto` (zz_generated.deepcopy.go, lines 665-754),
restricted to the modelled fields: `Assignments` and `Values` are copied by
`make`+`copy` (their elements are scalar), `PatchOperations` and
`SetupTasks` element by element via their own `DeepCopyInto`. -/
def TrialSpec.deepCopyInto (sp : TrialSpec) (n : Nat) : TrialSpec × Nat :=
  let ra := copySlice sp.assignments n
  let rp := copySliceWith PatchOperation.deepCopyInto sp.patchOperations ra.2
  let rv := copySlice sp.values rp.2
  let rs := copySliceWith SetupTask.deepCopyInto sp.setupTasks rv.2
  ({ sp with assignments := ra.1, patchOperations := rp.1,
             values := rv.1, setupTasks := rs.1 }, rs.2)

/-- `TrialStatus.DeepCopyInto` (zz_generated.deepcopy.go, lines 767-784):
`Conditions` copied element by element via `TrialCondition.DeepCopyInto`. -/
def TrialStatus.deepCopyInto (st : TrialStatus) (n : Nat) :
    TrialStatus × Nat :=
  let rc := copySliceWith TrialCondition.deepCopyInto st.conditions n
  ({ st with conditions := rc.1 }, rc.2)

/-- `Trial.DeepCopyInto` (zz_generated.deepcopy.go, lines 564-570): copy the
metadata by value and recurse into spec and status. -/
def Trial.deepCopyInto (t : Trial) (n : Nat) : Trial × Nat :=
  let rs := t.spec.deepCopyInto n
  let rt := t.status.deepCopyInto rs.2
  ({ t with spec := rs.1, status := rt.1 }, rt.2)

/-- `Trial.DeepCopy` (zz_generated.deepcopy.go, lines 573-580): a nil
receiver yields nil, otherwise a fresh `Trial` written by `DeepCopyInto`. -/
def Trial.DeepCopy (t : Option Trial) (n : Nat) : Option Trial × Nat :=
  match t with
  | none => (none, n)
  | some t₀ =>
      let r := t₀.deepCopyInto n
      (some r.1, r.2)

/-- `Value.DeepCopy` (zz_generated.deepcopy.go, lines 819-826): a nil
receiver yields nil, otherwise a fresh `Value` holding the same fields. -/
def Value.DeepCopy (v : Option Value) : Option Value :=
  match v with
  | none => none
  | some v₀ => some v₀

/-- The address-free content of a `PatchOperation`. -/
def PatchOperation.content (p : PatchOperation) :=
  (p.targetRef, p.patchType, p.data.elems?, p.attemptsRemaining)

/-- The addresses owned by a `PatchOperation`. -/
def PatchOperation.addrs (p : PatchOperation) : List Nat :=
  p.data.addrs

/-- The address-free content of a `SetupTask`. -/
def SetupTask.content (s : SetupTask) :=
  (s.name, s.command.elems?, s.args.elems?, s.skipCreate, s.skipDelete)

/-- The addresses owned by a `SetupTask`. -/
def SetupTask.addrs (s : SetupTask) : List Nat :=
  s.command.addrs ++ s.args.addrs

/-- The address-free content of a `TrialSpec`. -/
def TrialSpec.content (sp : TrialSpec) :=
  (sp.targetNamespace, sp.assignments.elems?,
   sp.patchOperations.elemsWith PatchOperation.content, sp.values.elems?,
   sp.setupTasks.elemsWith SetupTask.content)

/-- The addresses owned by a `TrialSpec`. -/
def TrialSpec.addrs (sp : TrialSpec) : List Nat :=
  sp.assignments.addrs ++ sp.patchOperations.addrsWith PatchOperation.addrs ++
    sp.values.addrs ++ sp.setupTasks.addrsWith SetupTask.addrs

/-- The address-free content of a `TrialStatus`. -/
def TrialStatus.content (st : TrialStatus) :=
  (st.phase, st.conditions.elems?)

/-- The addresses owned by a `TrialStatus`. -/
def TrialStatus.addrs (st : TrialStatus) : List Nat :=
  st.conditions.addrs

/-- The address-free content of a `Trial`. -/
def Trial.content (t : Trial) :=
  (t.name, t.spec.content, t.status.content)

/-- The addresses owned by a `Trial`. -/
def Trial.addrs (t : Trial) : List Nat :=
  t.spec.addrs ++ t.status.addrs

/-- A concrete trial fixture whose owned slices are all populated, with
backing-array addresses 1-8; used to evaluate the deep-copy model on a
closed input. -/
def sampleTrial : Trial :=
  { name := "trial-001"
    spec :=
      { targetNamespace := "default"
        assignments := .mk 1 [⟨"replicas", 3⟩]
        patchOperations := .mk 2 [⟨⟨"Deployment", "default", "app"⟩, "strategic",
          .mk 3 [123, 125], 5⟩]
        values := .mk 4 [⟨"duration", "4.2", "", 0⟩]
        setupTasks := .mk 5 [⟨"setup", .mk 6 ["sh"], .mk 7 ["-c"], false, false⟩] }
    status :=
      { phase := "Running"
        conditions := .mk 8 [⟨"Complete", "False", 0, 0, "", ""⟩] } }

end api

namespace redsky

/-! ## Theorems -/

lemma AttemptStep.step_attempts_le {s s' : OpState} (h : AttemptStep s s') :
    s'.attemptsRemaining ≤ s.attemptsRemaining := by
  cases h with
  | succeed n hn => exact le_of_lt hn
  | fail n hn => simp

lemma AttemptStep.step_succeeded_zero {s s' : OpState} (h : AttemptStep s s')
    (hs : s'.succeeded = true) : s'.attemptsRemaining = 0 := by
  cases h with
  | succeed n hn => rfl
  | fail n hn => simp at hs

lemma AttemptStep.no_step_from_succeeded {s s' : OpState} (h : AttemptStep s s')
    (hs : s.succeeded = true) : False := by
  cases h <;> simp at hs

lemma AttemptSteps.star_attempts_le {s s' : OpState} (h : AttemptSteps s s') :
    s'.attemptsRemaining ≤ s.attemptsRemaining := by
  induction h with
  | refl => exact le_refl _
  | tail _ hstep ih => exact le_trans hstep.step_attempts_le ih

lemma AttemptSteps.star_succeeded_zero {s s' : OpState} (h : AttemptSteps s s')
    (h0 : s.succeeded = false) (hs : s'.succeeded = true) :
    s'.attemptsRemaining = 0 := by
  induction h with
  | refl => rw [h0] at hs; exact absurd hs (by simp)
  | tail _ hstep _ => exact hstep.step_succeeded_zero hs

lemma set_get?_evolves {l : List OpState} {i : Nat} {a b : OpState}
    (hget : l.get? i = some a) (hstep : AttemptStep a b) (j : Nat) {c : OpState}
    (hj : l.get? j = some c) :
    ∃ c', (l.set i b).get? j = some c' ∧ AttemptSteps c c' := by
  by_cases hij : i = j
  · subst hij
    rw [hget] at hj
    cases hj
    refine ⟨b, ?_, Relation.ReflTransGen.single hstep⟩
    rw [List.get?_eq_getElem?] at hget ⊢
    rw [List.getElem?_set_self (by
      rcases List.getElem?_eq_some_iff.mp hget with ⟨h, _⟩
      exact h)]
  · exact ⟨c, by rw [List.get?_eq_getElem?] at hj ⊢; rw [List.getElem?_set_ne hij, hj],
      Relation.ReflTransGen.refl⟩

lemma TrialRetryStep.patch_evolves_step {s s' : TrialRetryState}
    (h : TrialRetryStep s s') (j : Nat) {a : OpState}
    (hj : s.patchOps.get? j = some a) :
    ∃ a', s'.patchOps.get? j = some a' ∧ AttemptSteps a a' := by
  cases h with
  | patch i c b hget hstep => exact set_get?_evolves hget hstep j hj
  | value i c b hget hstep => exact ⟨a, hj, Relation.ReflTransGen.refl⟩

lemma TrialRetryStep.value_evolves_step {s s' : TrialRetryState}
    (h : TrialRetryStep s s') (j : Nat) {a : OpState}
    (hj : s.valueOps.get? j = some a) :
    ∃ a', s'.valueOps.get? j = some a' ∧ AttemptSteps a a' := by
  cases h with
  | patch i c b hget hstep => exact ⟨a, hj, Relation.ReflTransGen.refl⟩
  | value i c b hget hstep => exact set_get?_evolves hget hstep j hj

lemma TrialRetrySteps.patch_evolves_star {s s' : TrialRetryState}
    (h : TrialRetrySteps s s') (j : Nat) {a : OpState}
    (hj : s.patchOps.get? j = some a) :
    ∃ a', s'.patchOps.get? j = some a' ∧ AttemptSteps a a' := by
  induction h with
  | refl => exact ⟨a, hj, Relation.ReflTransGen.refl⟩
  | tail _ hstep ih =>
    obtain ⟨b, hb, hab⟩ := ih
    obtain ⟨c, hc, hbc⟩ := hstep.patch_evolves_step j hb
    exact ⟨c, hc, Relation.ReflTransGen.trans hab hbc⟩

lemma TrialRetrySteps.value_evolves_star {s s' : TrialRetryState}
    (h : TrialRetrySteps s s') (j : Nat) {a : OpState}
    (hj : s.valueOps.get? j = some a) :
    ∃ a', s'.valueOps.get? j = some a' ∧ AttemptSteps a a' := by
  induction h with
  | refl => exact ⟨a, hj, Relation.ReflTransGen.refl⟩
  | tail _ hstep ih =>
    obtain ⟨b, hb, hab⟩ := ih
    obtain ⟨c, hc, hbc⟩ := hstep.value_evolves_step j hb
    exact ⟨c, hc, Relation.ReflTransGen.trans hab hbc⟩

end redsky

namespace redskyapi

/-!
## Theorems about the API client
-/

/--
C5.  If the underlying HTTP round trip fails, `httpClient.Do` returns a nil
response, a nil body, and exactly the round-trip error; there is no retry —
the outcome is fully determined by the one round-trip result.
-/
theorem do_roundtrip_error_propagates (ctx : Option Ctx) (e : GoError)
    (ctxDoneFirst : Bool) :
    httpClient.Do ctx (.error e) ctxDoneFirst = .ret none none (some e) := by
  rfl

/--
C3.  If the round trip produced a response and the context is cancelled
while the body is still being read (the `ctx.Done()` select case fires),
`Do` returns a non-nil error: the close error when `resp.Body.Close()`
fails, and otherwise the context's error.  It never returns a nil error in
this situation.
-/
theorem do_cancelled_returns_error (c : Ctx) (resp : Response)
    (hc : c.canceled = true) :
    ∃ e : GoError,
      httpClient.Do (some c) (.ok resp) true =
        .ret (some resp) (some resp.readBytes) (some e) ∧
      e = resp.closeErr.getD c.ctxErr := by
  refine ⟨resp.closeErr.getD c.ctxErr, ?_, rfl⟩
  cases hce : resp.closeErr with
  | none => simp [httpClient.Do, Ctx.Err, hc, hce]
  | some ce => simp [httpClient.Do, hc, hce]

/-- Witness for C3 at a concrete cancelled context and response. -/
theorem do_cancelled_returns_error_witness :
    ∃ e : GoError,
      httpClient.Do (some ⟨true, ⟨"context canceled"⟩⟩)
        (.ok ⟨[7, 8], none, none⟩) true =
        .ret (some ⟨[7, 8], none, none⟩) (some [7, 8]) (some e) ∧
      e = (Option.none (α := GoError)).getD ⟨"context canceled"⟩ :=
  do_cancelled_returns_error ⟨true, ⟨"context canceled"⟩⟩ ⟨[7, 8], none, none⟩ rfl

/--
C9.  `Do` with a nil context: the nil guard only protects the
`req.WithContext` call; when the round trip returns a response the `select`
still evaluates `ctx.Done()` on the nil interface, so `Do` panics instead of
returning normally.
-/
theorem do_nil_context_panics (resp : Response) (ctxDoneFirst : Bool) :
    httpClient.Do none (.ok resp) ctxDoneFirst =
      .panic "runtime error: invalid memory address or nil pointer dereference" := by
  rfl

/--
C8.  `httpClient.URL` discards the error from the configuration's
`ExperimentsURL` lookup and returns whatever URL it produced, and
`NewClient` pre-validates only the empty endpoint: there is a configuration
accepted by `NewClient` on which `URL` returns nil for a non-empty endpoint.
-/
theorem url_discards_error :
    (∀ (c : httpClient) (ep : String),
        c.URL ep = (c.config.experimentsURL ep).1) ∧
    (∃ cfg : Config, ∃ c : httpClient,
        NewClient cfg = .ok c ∧ c.URL "/experiments/x" = none) := by
  refine ⟨fun c ep => rfl, ?_⟩
  refine ⟨⟨none, fun ep => if ep = "" then (some ⟨"https://api.example.com"⟩, none)
    else (none, some ⟨"bad endpoint"⟩)⟩, ?_, ?_, ?_⟩
  · exact { config := ⟨none, fun ep => if ep = "" then (some ⟨"https://api.example.com"⟩, none)
      else (none, some ⟨"bad endpoint"⟩)⟩ }
  · rfl
  · rfl

end redskyapi

namespace redsky

/--
C1 (amended).  Over any sequence of attempt transitions of a trial, every
operation's `AttemptsRemaining` counter is monotonically non-increasing —
it never increases — and an operation that started unfinished and ends
succeeded has its counter at exactly 0.  (The counter may also reach 0 by
decrementing through failed attempts, so a zero counter alone does not
imply success; see the counterexample.)
-/
theorem attemptsRemaining_monotone (s s' : TrialRetryState)
    (h : TrialRetrySteps s s') :
    (∀ j a a', s.patchOps.get? j = some a → s'.patchOps.get? j = some a' →
        a'.attemptsRemaining ≤ a.attemptsRemaining ∧
        (a.succeeded = false → a'.succeeded = true → a'.attemptsRemaining = 0)) ∧
    (∀ j a a', s.valueOps.get? j = some a → s'.valueOps.get? j = some a' →
        a'.attemptsRemaining ≤ a.attemptsRemaining ∧
        (a.succeeded = false → a'.succeeded = true → a'.attemptsRemaining = 0)) := by
  constructor
  · intro j a a' hja hja'
    obtain ⟨b, hb, hab⟩ := h.patch_evolves_star j hja
    rw [hja'] at hb
    cases hb
    exact ⟨hab.star_attempts_le, fun h0 hs => hab.star_succeeded_zero h0 hs⟩
  · intro j a a' hja hja'
    obtain ⟨b, hb, hab⟩ := h.value_evolves_star j hja
    rw [hja'] at hb
    cases hb
    exact ⟨hab.star_attempts_le, fun h0 hs => hab.star_succeeded_zero h0 hs⟩

/-- Witness for C1: a trial with one patch operation (2 attempts left) and
one metric value (1 attempt left) whose patch succeeds in one step. -/
theorem attemptsRemaining_monotone_witness :
    (OpState.mk 0 true).attemptsRemaining ≤ (OpState.mk 2 false).attemptsRemaining ∧
    (OpState.mk 0 true).attemptsRemaining = 0 := by
  have htrace : TrialRetrySteps ⟨[⟨2, false⟩], [⟨1, false⟩]⟩ ⟨[⟨0, true⟩], [⟨1, false⟩]⟩ :=
    Relation.ReflTransGen.single
      (TrialRetryStep.patch ⟨[⟨2, false⟩], [⟨1, false⟩]⟩ 0 ⟨2, false⟩ ⟨0, true⟩ rfl
        (AttemptStep.succeed 2 (by norm_num)))
  have h := attemptsRemaining_monotone ⟨[⟨2, false⟩], [⟨1, false⟩]⟩
    ⟨[⟨0, true⟩], [⟨1, false⟩]⟩ htrace
  have h0 := h.1 0 ⟨2, false⟩ ⟨0, true⟩ rfl rfl
  exact ⟨h0.1, h0.2 rfl rfl⟩

/--
C1 counterexample.  The claim's "set to exactly 0 when and only when that
operation succeeds" fails in the "only when" direction: a patch operation
with one attempt remaining whose attempt fails ends with
`AttemptsRemaining = 0` although it never succeeded (spec §4.1: "when the
counter reaches zero without success, the resolver reports a fatal error").
-/
theorem attemptsRemaining_zero_without_success :
    ¬ ∀ (s s' : TrialRetryState), TrialRetrySteps s s' →
        ∀ j a', s'.patchOps.get? j = some a' →
          a'.attemptsRemaining = 0 → a'.succeeded = true := by
  intro h
  have hcontra := h ⟨[⟨1, false⟩], []⟩ ⟨[⟨0, false⟩], []⟩
    (Relation.ReflTransGen.single
      (TrialRetryStep.patch ⟨[⟨1, false⟩], []⟩ 0 ⟨1, false⟩ ⟨0, false⟩ rfl
        (AttemptStep.fail 1 (by norm_num)))) 0 ⟨0, false⟩ rfl rfl
  simp at hcontra

/--
C2.  Once a trial carries a `Complete` or `Failed` condition with status
`True`, it is terminal: no controller step mutates `Assignments`,
`PatchOperations`, `Values` or `SetupTasks`, and the `Conditions` list only
ever receives appends.
-/
theorem terminal_trial_frame (t : Trial) (e : LifecycleEvent)
    (hfin : t.isFinished = true) :
    (controllerStep t e).assignments = t.assignments ∧
    (controllerStep t e).patchOperations = t.patchOperations ∧
    (controllerStep t e).values = t.values ∧
    (controllerStep t e).setupTasks = t.setupTasks ∧
    ∃ extra, (controllerStep t e).conditions = t.conditions ++ extra := by
  cases e <;> simp [controllerStep, hfin]

/-- Witness for C2: a completed trial receiving a late external failure
event keeps its assignments, operations, values and setup tasks. -/
theorem terminal_trial_frame_witness :
    (controllerStep ⟨[⟨"replicas", 3⟩], [], [⟨"duration", "4.2", "", 0⟩], [],
        [⟨"Complete", "True", 9, 9, "", ""⟩]⟩
      (.failed 12 "Canceled" "external deletion")).assignments =
      [⟨"replicas", 3⟩] ∧
    (controllerStep ⟨[⟨"replicas", 3⟩], [], [⟨"duration", "4.2", "", 0⟩], [],
        [⟨"Complete", "True", 9, 9, "", ""⟩]⟩
      (.failed 12 "Canceled" "external deletion")).values =
      [⟨"duration", "4.2", "", 0⟩] := by
  have h := terminal_trial_frame
    ⟨[⟨"replicas", 3⟩], [], [⟨"duration", "4.2", "", 0⟩], [],
      [⟨"Complete", "True", 9, 9, "", ""⟩]⟩
    (.failed 12 "Canceled" "external deletion") (by decide)
  exact ⟨h.1, h.2.2.1⟩

/--
C6.  A `prometheus` metric whose query returns a vector of three points is
reported as a non-retryable error by the collector, and recording that
outcome transitions the trial to `Failed`.
-/
theorem prometheus_multivalue_fails (m : Metric) (t : Trial) (env : CollectEnv)
    (i now : Nat) (p1 p2 p3 : String)
    (hm : m.type = MetricPrometheus)
    (hv : env.promResult = .vector [p1, p2, p3]) :
    captureMetric m t env = .error (.nonRetryable "expected scalar query result") ∧
    (t.collectMetric i m env now).isFinished = true := by
  have hcap : captureMetric m t env =
      .error (.nonRetryable "expected scalar query result") := by
    simp [captureMetric, hm, hv, MetricLocal, MetricPrometheus]
  refine ⟨hcap, ?_⟩
  simp [Trial.collectMetric, hcap, Trial.recordMetric, Trial.markFailed,
    Trial.isFinished, TrialFailed, TrialComplete]

/-- Witness for C6: a concrete prometheus metric receiving a 3-point vector. -/
theorem prometheus_multivalue_fails_witness :
    captureMetric ⟨"throughput", false, "prometheus", "rate(reqs[1m])", 9090, "/"⟩
        ⟨[], [], [⟨"throughput", "", "", 3⟩], [], []⟩
        ⟨"svc:9090", .vector ["1", "2", "3"], "", fun _ _ => ""⟩ =
      .error (.nonRetryable "expected scalar query result") ∧
    (Trial.collectMetric ⟨[], [], [⟨"throughput", "", "", 3⟩], [], []⟩ 0
        ⟨"throughput", false, "prometheus", "rate(reqs[1m])", 9090, "/"⟩
        ⟨"svc:9090", .vector ["1", "2", "3"], "", fun _ _ => ""⟩ 7).isFinished = true :=
  prometheus_multivalue_fails
    ⟨"throughput", false, "prometheus", "rate(reqs[1m])", 9090, "/"⟩
    ⟨[], [], [⟨"throughput", "", "", 3⟩], [], []⟩
    ⟨"svc:9090", .vector ["1", "2", "3"], "", fun _ _ => ""⟩
    0 7 "1" "2" "3" rfl rfl

/--
C7.  The collector's dispatch is closed over `{local, prometheus,
jsonpath}`: any other type string is rejected, and a `local` metric is
evaluated against the trial object itself, consulting no external service
(its list of consulted network endpoints is empty).
-/
theorem metricType_closed_and_local_offline :
    (∀ (m : Metric) (t : Trial) (env : CollectEnv),
        m.type ≠ MetricLocal → m.type ≠ MetricPrometheus → m.type ≠ MetricJSONPath →
        captureMetric m t env = .error (.nonRetryable "unsupported metric type")) ∧
    (∀ (m : Metric) (t : Trial) (env : CollectEnv),
        m.type = MetricLocal →
        captureMetric m t env = .ok (env.localEval m.query t, [])) := by
  constructor
  · intro m t env h1 h2 h3
    simp [captureMetric, h1, h2, h3]
  · intro m t env hm
    simp [captureMetric, hm, MetricLocal]

/-- Witness for C7: an undeclared type string is rejected while a `local`
metric evaluates offline against the trial. -/
theorem metricType_closed_and_local_offline_witness :
    captureMetric ⟨"m", false, "regex", "q", 0, ""⟩ ⟨[], [], [], [], []⟩
        ⟨"svc", .scalar "1", "", fun q _ => q ++ "!"⟩ =
      .error (.nonRetryable "unsupported metric type") ∧
    captureMetric ⟨"m", false, "local", "q", 0, ""⟩ ⟨[], [], [], [], []⟩
        ⟨"svc", .scalar "1", "", fun q _ => q ++ "!"⟩ =
      .ok ("q!", []) := by
  have h := metricType_closed_and_local_offline
  refine ⟨h.1 ⟨"m", false, "regex", "q", 0, ""⟩ ⟨[], [], [], [], []⟩
      ⟨"svc", .scalar "1", "", fun q _ => q ++ "!"⟩ (by decide) (by decide) (by decide), ?_⟩
  exact h.2 ⟨"m", false, "local", "q", 0, ""⟩ ⟨[], [], [], [], []⟩
    ⟨"svc", .scalar "1", "", fun q _ => q ++ "!"⟩ rfl

end redsky

namespace api

/-!
## Theorems about the generated deep copy
-/

lemma copySlice_spec {α : Type} (s : Slice α) (n : Nat) :
    (copySlice s n).1.elems? = s.elems? ∧ n ≤ (copySlice s n).2 ∧
    ∀ a ∈ (copySlice s n).1.addrs, n ≤ a := by
  cases s with
  | nil => simp [copySlice, Slice.elems?, Slice.addrs]
  | mk ad es =>
    refine ⟨rfl, Nat.le_succ n, ?_⟩
    intro a ha
    simp [copySlice, Slice.addrs] at ha
    omega

lemma copyListWith_spec {α β : Type} (f : α → Nat → α × Nat) (g : α → β)
    (af : α → List Nat)
    (hf : ∀ x m, g (f x m).1 = g x ∧ m ≤ (f x m).2 ∧ ∀ a ∈ af (f x m).1, m ≤ a) :
    ∀ (l : List α) (m : Nat),
      (copyListWith f l m).1.map g = l.map g ∧
      m ≤ (copyListWith f l m).2 ∧
      ∀ a ∈ ((copyListWith f l m).1.map af).flatten, m ≤ a := by
  intro l
  induction l with
  | nil => intro m; simp [copyListWith]
  | cons x xs ih =>
    intro m
    obtain ⟨hg, hle, haddr⟩ := hf x m
    obtain ⟨ihg, ihle, ihaddr⟩ := ih (f x m).2
    refine ⟨?_, le_trans hle ihle, ?_⟩
    · simp [copyListWith, hg, ihg]
    · intro a ha
      simp only [copyListWith, List.map_cons, List.flatten_cons, List.mem_append] at ha
      rcases ha with ha | ha
      · exact haddr a ha
      · exact le_trans hle (ihaddr a ha)

lemma copySliceWith_spec {α β : Type} (f : α → Nat → α × Nat) (g : α → β)
    (af : α → List Nat)
    (hf : ∀ x m, g (f x m).1 = g x ∧ m ≤ (f x m).2 ∧ ∀ a ∈ af (f x m).1, m ≤ a)
    (s : Slice α) (n : Nat) :
    (copySliceWith f s n).1.elemsWith g = s.elemsWith g ∧
    n ≤ (copySliceWith f s n).2 ∧
    ∀ a ∈ (copySliceWith f s n).1.addrsWith af, n ≤ a := by
  cases s with
  | nil => simp [copySliceWith, Slice.elemsWith, Slice.addrsWith]
  | mk ad es =>
    obtain ⟨hmap, hle, haddr⟩ := copyListWith_spec f g af hf es (n + 1)
    refine ⟨?_, le_trans (Nat.le_succ n) hle, ?_⟩
    · simp [copySliceWith, Slice.elemsWith, hmap]
    · intro a ha
      simp only [copySliceWith, Slice.addrsWith, List.mem_cons] at ha
      rcases ha with ha | ha
      · omega
      · exact le_trans (Nat.le_succ n) (haddr a ha)

lemma PatchOperation.deepCopyInto_patchOp_spec (p : PatchOperation) (m : Nat) :
    PatchOperation.content (p.deepCopyInto m).1 = p.content ∧
    m ≤ (p.deepCopyInto m).2 ∧
    ∀ a ∈ PatchOperation.addrs (p.deepCopyInto m).1, m ≤ a := by
  obtain ⟨he, hle, ha⟩ := copySlice_spec p.data m
  exact ⟨by simp [PatchOperation.deepCopyInto, PatchOperation.content, he], hle,
    fun a haddr => ha a haddr⟩

lemma SetupTask.deepCopyInto_setupTask_spec (s : SetupTask) (m : Nat) :
    SetupTask.content (s.deepCopyInto m).1 = s.content ∧
    m ≤ (s.deepCopyInto m).2 ∧
    ∀ a ∈ SetupTask.addrs (s.deepCopyInto m).1, m ≤ a := by
  obtain ⟨he1, hle1, ha1⟩ := copySlice_spec s.command m
  obtain ⟨he2, hle2, ha2⟩ := copySlice_spec s.args (copySlice s.command m).2
  refine ⟨?_, le_trans hle1 hle2, ?_⟩
  · simp [SetupTask.deepCopyInto, SetupTask.content, he1, he2]
  · intro a haddr
    simp only [SetupTask.deepCopyInto, SetupTask.addrs, List.mem_append] at haddr
    rcases haddr with h | h
    · exact ha1 a h
    · exact le_trans hle1 (ha2 a h)

lemma copyListWith_cond_id (es : List TrialCondition) (m : Nat) :
    copyListWith TrialCondition.deepCopyInto es m = (es, m) := by
  induction es with
  | nil => rfl
  | cons c cs ih => simp [copyListWith, TrialCondition.deepCopyInto, ih]

lemma TrialStatus.deepCopyInto_status_spec (st : TrialStatus) (n : Nat) :
    TrialStatus.content (st.deepCopyInto n).1 = st.content ∧
    n ≤ (st.deepCopyInto n).2 ∧
    ∀ a ∈ TrialStatus.addrs (st.deepCopyInto n).1, n ≤ a := by
  cases hcs : st.conditions with
  | nil =>
    refine ⟨?_, ?_, ?_⟩ <;>
      simp [TrialStatus.deepCopyInto, TrialStatus.content, TrialStatus.addrs,
        copySliceWith, hcs, Slice.elems?, Slice.addrs]
  | mk ad es =>
    refine ⟨?_, ?_, ?_⟩ <;>
      simp [TrialStatus.deepCopyInto, TrialStatus.content, TrialStatus.addrs,
        copySliceWith, hcs, copyListWith_cond_id, Slice.elems?, Slice.addrs]

lemma TrialSpec.deepCopyInto_trialSpec_spec (sp : TrialSpec) (n : Nat) :
    TrialSpec.content (sp.deepCopyInto n).1 = sp.content ∧
    n ≤ (sp.deepCopyInto n).2 ∧
    ∀ a ∈ TrialSpec.addrs (sp.deepCopyInto n).1, n ≤ a := by
  obtain ⟨e1, l1, d1⟩ := copySlice_spec sp.assignments n
  obtain ⟨e2, l2, d2⟩ := copySliceWith_spec PatchOperation.deepCopyInto
    PatchOperation.content PatchOperation.addrs PatchOperation.deepCopyInto_patchOp_spec
    sp.patchOperations (copySlice sp.assignments n).2
  obtain ⟨e3, l3, d3⟩ := copySlice_spec sp.values
    (copySliceWith PatchOperation.deepCopyInto sp.patchOperations
      (copySlice sp.assignments n).2).2
  obtain ⟨e4, l4, d4⟩ := copySliceWith_spec SetupTask.deepCopyInto
    SetupTask.content SetupTask.addrs SetupTask.deepCopyInto_setupTask_spec
    sp.setupTasks (copySlice sp.values
      (copySliceWith PatchOperation.deepCopyInto sp.patchOperations
        (copySlice sp.assignments n).2).2).2
  refine ⟨?_, le_trans l1 (le_trans l2 (le_trans l3 l4)), ?_⟩
  · simp [TrialSpec.deepCopyInto, TrialSpec.content, e1, e2, e3, e4]
  · intro a ha
    simp only [TrialSpec.deepCopyInto, TrialSpec.addrs, List.mem_append] at ha
    rcases ha with ((ha | ha) | ha) | ha
    · exact d1 a ha
    · exact le_trans l1 (d2 a ha)
    · exact le_trans l1 (le_trans l2 (d3 a ha))
    · exact le_trans l1 (le_trans l2 (le_trans l3 (d4 a ha)))

lemma Trial.deepCopyInto_trial_spec (t : Trial) (n : Nat) :
    Trial.content (t.deepCopyInto n).1 = t.content ∧
    n ≤ (t.deepCopyInto n).2 ∧
    ∀ a ∈ Trial.addrs (t.deepCopyInto n).1, n ≤ a := by
  obtain ⟨e1, l1, d1⟩ := TrialSpec.deepCopyInto_trialSpec_spec t.spec n
  obtain ⟨e2, l2, d2⟩ := TrialStatus.deepCopyInto_status_spec t.status (t.spec.deepCopyInto n).2
  refine ⟨?_, le_trans l1 l2, ?_⟩
  · simp [Trial.deepCopyInto, Trial.content, e1, e2]
  · intro a ha
    simp only [Trial.deepCopyInto, Trial.addrs, List.mem_append] at ha
    rcases ha with ha | ha
    · exact d1 a ha
    · exact le_trans l1 (d2 a ha)

end api

namespace api

/--
C4.  `Trial.DeepCopy` on a non-nil trial copies every owned slice
(`Assignments`, `PatchOperations` including their `Data` bytes, `Values`,
`SetupTasks`, `Conditions`) element by element into freshly allocated
backing arrays: the copy has the same address-free content as the original
and owns no backing-array address of the original, so mutating any part of
the copy cannot change the original.
-/
theorem Trial_DeepCopy_no_aliasing (t : Trial) (n : Nat)
    (hold : ∀ b ∈ Trial.addrs t, b < n) :
    (Trial.DeepCopy (some t) n).1 = some (t.deepCopyInto n).1 ∧
    Trial.content (t.deepCopyInto n).1 = t.content ∧
    ∀ a ∈ Trial.addrs (t.deepCopyInto n).1, ∀ b ∈ Trial.addrs t, a ≠ b := by
  obtain ⟨he, _, hd⟩ := Trial.deepCopyInto_trial_spec t n
  refine ⟨rfl, he, ?_⟩
  intro a ha b hb
  have h1 := hd a ha
  have h2 := hold b hb
  omega

/-- Witness for C4: copying `sampleTrial` (addresses 1-8) with the
allocator at 50 preserves the content and shares no address. -/
theorem Trial_DeepCopy_no_aliasing_witness :
    Trial.content (Trial.deepCopyInto sampleTrial 50).1 = Trial.content sampleTrial ∧
    ∀ a ∈ Trial.addrs (Trial.deepCopyInto sampleTrial 50).1,
      ∀ b ∈ Trial.addrs sampleTrial, a ≠ b := by
  have h := Trial_DeepCopy_no_aliasing sampleTrial 50 (by decide)
  exact ⟨h.2.1, h.2.2⟩

/--
C10.  `DeepCopy` on a nil receiver returns nil (allocating nothing), for
`Trial` and for `Value`: the generated deep copy is total over optional
values.
-/
theorem DeepCopy_nil_receiver (n : Nat) :
    Trial.DeepCopy none n = (none, n) ∧ Value.DeepCopy none = none :=
  ⟨rfl, rfl⟩

end api
